import Mathlib

/-!
Shallow embedding of `src/progressbar.h` (a single-header C progress-bar
renderer) together with proofs about its layout, fill, timing and output
logic.

Modelling conventions:
* C `unsigned long` values (the `max` and `value` fields) are natural
  numbers; arithmetic the C source performs at `unsigned long` type is
  reduced modulo `2 ^ 64` exactly where the source performs it.
* C `int` quantities (screen width, bar width, label width, seconds) are
  integers `ℤ`; C `int` division truncates toward zero, which is `Int.tdiv`.
* C `double` arithmetic (`difftime` results and the fill-ratio expressions)
  is modelled as exact rational arithmetic over `ℚ`; the C conversion of a
  `double` back to `int` truncates toward zero, modelled by `cTrunc`.
* The wall clock (`time(NULL)`) and the terminal width query
  (`get_screen_width`) are environment inputs, passed to the draw function
  as explicit arguments `now` and `screen_width`.
* The bytes `progressbar_draw` writes to `stderr` are collected, in order,
  into a `String` return value.
-/

/-- DEFAULT_SCREEN_WIDTH: how wide we assume the screen is if the terminal
size query fails. -/
def DEFAULT_SCREEN_WIDTH : ℤ := 80

/-- MINIMUM_BAR_WIDTH: the smallest that the bar can ever be (not including
borders). -/
def MINIMUM_BAR_WIDTH : ℤ := 10

/-- ETA_FORMAT_LENGTH: the maximum number of characters that the ETA format
can ever yield. -/
def ETA_FORMAT_LENGTH : ℤ := 13

/-- WHITESPACE_LENGTH: amount of screen width taken up by whitespace between
the label/bar/ETA components. -/
def WHITESPACE_LENGTH : ℤ := 2

/-- BAR_BORDER_WIDTH: the amount of width taken up by the border of the bar
component. -/
def BAR_BORDER_WIDTH : ℤ := 2

/-- ULONG_CARD: the number of values of the C type `unsigned long`
(64 bits on the targeted LP64 platforms). -/
def ULONG_CARD : ℕ := 2 ^ 64

/-- cTrunc models the C conversion of a `double` value (modelled as an exact
rational) to an integer type: truncation toward zero.  For a rational in
lowest terms `num / den` with `den > 0` this is the toward-zero integer
division of the numerator by the denominator. -/
def cTrunc (q : ℚ) : ℤ := Int.tdiv q.num q.den

/-- intToSize models the C conversion from `int` to `size_t` (reduction
modulo `2 ^ 64`), as performed when an `int` is passed for the `size_t`
parameter `times` of `progressbar_write_char`. -/
def intToSize (x : ℤ) : ℕ := (x % (ULONG_CARD : ℤ)).toNat

/-- usubULong models C `unsigned long` subtraction, which wraps modulo
`2 ^ 64` (used for `bar->max - bar->value` in
`progressbar_remaining_seconds`). -/
def usubULong (x y : ℕ) : ℕ := (x % ULONG_CARD + ULONG_CARD - y % ULONG_CARD) % ULONG_CARD

/-- progressbar: the `_progressbar_t` struct.  `max` and `value` are
`unsigned long` (natural numbers below `ULONG_CARD` in any state the C
program can build), `start` is the `time_t` creation timestamp in seconds,
`label` is the caller-owned label string, and the three `format` characters
are the begin/fill/end glyphs. -/
structure progressbar where
  max : ℕ
  value : ℕ
  start : ℤ
  label : String
  fmt_begin : Char
  fmt_fill : Char
  fmt_end : Char

/-- progressbar_update: sets the current value (the argument arrives through
an `unsigned long` parameter, hence the reduction modulo `ULONG_CARD`) and
then redraws.  Only the state change is modelled here; the redraw output is
`progressbar_draw` of the new state. -/
def progressbar_update (bar : progressbar) (value : ℕ) : progressbar :=
  { bar with value := value % ULONG_CARD }

/-- progressbar_inc: increments an existing progressbar by a single step,
implemented as `progressbar_update(bar, bar->value + 1)`; the `+ 1` is
`unsigned long` arithmetic, so it wraps modulo `ULONG_CARD` (the reduction
happens in `progressbar_update`, where the sum arrives as the `unsigned
long` argument). -/
def progressbar_inc (bar : progressbar) : progressbar :=
  progressbar_update bar (bar.value + 1)

/-- progressbar_max: `x > y ? x : y`. -/
def progressbar_max (x y : ℤ) : ℤ := if x > y then x else y

/-- progressbar_bar_width: `max(MINIMUM_BAR_WIDTH,
screen_width - label_length - ETA_FORMAT_LENGTH - WHITESPACE_LENGTH)`. -/
def progressbar_bar_width (screen_width label_length : ℤ) : ℤ :=
  progressbar_max MINIMUM_BAR_WIDTH
    (screen_width - label_length - ETA_FORMAT_LENGTH - WHITESPACE_LENGTH)

/-- progressbar_label_width: if the label plus bar plus ETA field would
overflow the screen, the label is shrunk to
`max(0, screen_width - bar_width - eta_width - WHITESPACE_LENGTH)`;
otherwise the full label length is used. -/
def progressbar_label_width (screen_width label_length bar_width : ℤ) : ℤ :=
  if label_length + 1 + bar_width + 1 + ETA_FORMAT_LENGTH > screen_width then
    progressbar_max 0 (screen_width - bar_width - ETA_FORMAT_LENGTH - WHITESPACE_LENGTH)
  else
    label_length

/-- progressbar_remaining_seconds: `offset = difftime(now, bar->start)` (a
`double`, exact for integer timestamps); if `bar->value > 0 && offset > 0`
the result is `(offset / (double) bar->value) * (bar->max - bar->value)`
truncated to `int`, where `bar->max - bar->value` is `unsigned long`
subtraction; otherwise 0. -/
def progressbar_remaining_seconds (bar : progressbar) (now : ℤ) : ℤ :=
  let offset : ℚ := ((now - bar.start : ℤ) : ℚ)
  if 0 < bar.value ∧ 0 < offset then
    cTrunc ((offset / (bar.value : ℚ)) * ((usubULong bar.max bar.value : ℕ) : ℚ))
  else
    0

/-- progressbar_time_components: a duration broken into
hours/minutes/seconds. -/
structure progressbar_time_components where
  hours : ℤ
  minutes : ℤ
  seconds : ℤ
deriving DecidableEq

/-- progressbar_calc_time_components: decomposes total seconds into hours
(`seconds / 3600`), minutes (remainder `/ 60`) and seconds (final
remainder), using C `int` division (truncation toward zero, `Int.tdiv`). -/
def progressbar_calc_time_components (seconds : ℤ) : progressbar_time_components :=
  let hours := Int.tdiv seconds 3600
  let seconds1 := seconds - hours * 3600
  let minutes := Int.tdiv seconds1 60
  let seconds2 := seconds1 - minutes * 60
  { hours := hours, minutes := minutes, seconds := seconds2 }

/-- fmtSpace2 renders an integer the way `printf("%2d", n)` does: decimal
digits, right-aligned in a field of (minimum) width 2, padded with a space. -/
def fmtSpace2 (n : ℤ) : String :=
  let s := toString n
  if s.length < 2 then " " ++ s else s

/-- fmtZero2 renders an integer the way `printf("%02d", n)` does: decimal
digits, right-aligned in a field of (minimum) width 2, padded with a zero. -/
def fmtZero2 (n : ℤ) : String :=
  let s := toString n
  if s.length < 2 then "0" ++ s else s

/-- etaString renders `fprintf(stderr, ETA_FORMAT, hours, minutes, seconds)`
with `ETA_FORMAT = "ETA:%2dh%02dm%02ds"`. -/
def etaString (c : progressbar_time_components) : String :=
  "ETA:" ++ fmtSpace2 c.hours ++ "h" ++ fmtZero2 c.minutes ++ "m"
    ++ fmtZero2 c.seconds ++ "s"

/-- progressbar_completed: the completion test `bar->value >= bar->max`
performed at the top of `progressbar_draw`. -/
def progressbar_completed (bar : progressbar) : Bool :=
  bar.value ≥ bar.max

/-- progressbar_bar_piece_current: the filled-cell count computed by
`progressbar_draw`: all `bar_piece_count` cells when completed, otherwise
`bar_piece_count * ((double) bar->value / bar->max)` truncated to `int`
(the `double` arithmetic is modelled exactly over `ℚ`). -/
def progressbar_bar_piece_current (bar : progressbar) (bar_piece_count : ℤ) : ℤ :=
  if progressbar_completed bar then
    bar_piece_count
  else
    cTrunc ((bar_piece_count : ℚ) * ((bar.value : ℚ) / (bar.max : ℚ)))

/-- progressbar_write_char: writes `times` copies of a character (the bytes
written are returned as a string). -/
def progressbar_write_char (ch : Char) (times : ℕ) : String :=
  String.mk (List.replicate times ch)

/-- progressbar_eta: the time components drawn in the ETA field: elapsed time
`difftime(now, bar->start)` when completed (the `double` result is exact for
integer timestamps and is truncated by the `int` parameter of
`progressbar_calc_time_components`), otherwise the remaining-seconds
estimate. -/
def progressbar_eta (bar : progressbar) (now : ℤ) : progressbar_time_components :=
  if progressbar_completed bar then
    progressbar_calc_time_components (now - bar.start)
  else
    progressbar_calc_time_components (progressbar_remaining_seconds bar now)

/-- progressbar_draw: the bytes written to `stderr` by one draw, in order:
the label (its first `label_width` bytes) and a space when `label_width` is
nonzero, the begin glyph, `bar_piece_current` fill glyphs,
`bar_piece_count - bar_piece_current` spaces, the end glyph, a space, the
formatted ETA field, and a carriage return.  The source also executes
`bar_width += 1` when `label_width == 0` ("donating" the label's column to
the bar), but `bar_width` is never read again after that point, so the
increment has no effect on the emitted bytes and no counterpart below. -/
def progressbar_draw (bar : progressbar) (screen_width now : ℤ) : String :=
  let label_length : ℤ := (bar.label.length : ℤ)
  let bar_width := progressbar_bar_width screen_width label_length
  let label_width := progressbar_label_width screen_width label_length bar_width
  let bar_piece_count := bar_width - BAR_BORDER_WIDTH
  let bar_piece_current := progressbar_bar_piece_current bar bar_piece_count
  let eta := progressbar_eta bar now
  (if label_width = 0 then "" else bar.label.take (intToSize label_width) ++ " ")
    ++ String.singleton bar.fmt_begin
    ++ progressbar_write_char bar.fmt_fill (intToSize bar_piece_current)
    ++ progressbar_write_char ' ' (intToSize (bar_piece_count - bar_piece_current))
    ++ String.singleton bar.fmt_end
    ++ " " ++ etaString eta ++ "\r"

/-- progressbar_draw_call models one call of the draw routine as a state
transformer: `progressbar_draw` takes its state through a pointer to
`const`, so the state comes back unchanged next to the emitted bytes. -/
def progressbar_draw_call (bar : progressbar) (screen_width now : ℤ) :
    progressbar × String :=
  (bar, progressbar_draw bar screen_width now)

/-- progressbar_remaining_seconds_checked: `progressbar_remaining_seconds`
instrumented to fail (`none`) if the division `offset / (double) bar->value`
would be executed with a zero divisor. -/
def progressbar_remaining_seconds_checked (bar : progressbar) (now : ℤ) : Option ℤ :=
  let offset : ℚ := ((now - bar.start : ℤ) : ℚ)
  if 0 < bar.value ∧ 0 < offset then
    if (bar.value : ℚ) = 0 then none
    else some (cTrunc ((offset / (bar.value : ℚ)) * ((usubULong bar.max bar.value : ℕ) : ℚ)))
  else
    some 0

/-- progressbar_bar_piece_current_checked: the filled-cell computation
instrumented to fail (`none`) if the division `(double) bar->value /
bar->max` would be executed with a zero divisor. -/
def progressbar_bar_piece_current_checked (bar : progressbar) (bar_piece_count : ℤ) :
    Option ℤ :=
  if progressbar_completed bar then
    some bar_piece_count
  else if (bar.max : ℚ) = 0 then
    none
  else
    some (cTrunc ((bar_piece_count : ℚ) * ((bar.value : ℚ) / (bar.max : ℚ))))

/-- progressbar_eta_checked: the ETA computation with the division check of
`progressbar_remaining_seconds_checked` propagated. -/
def progressbar_eta_checked (bar : progressbar) (now : ℤ) :
    Option progressbar_time_components :=
  if progressbar_completed bar then
    some (progressbar_calc_time_components (now - bar.start))
  else
    (progressbar_remaining_seconds_checked bar now).map progressbar_calc_time_components

/-- progressbar_draw_checked: `progressbar_draw` with every division the
draw or ETA logic can execute checked for a zero divisor; the result is
`none` exactly when some executed division would divide by zero. -/
def progressbar_draw_checked (bar : progressbar) (screen_width now : ℤ) : Option String :=
  let label_length : ℤ := (bar.label.length : ℤ)
  let bar_width := progressbar_bar_width screen_width label_length
  let label_width := progressbar_label_width screen_width label_length bar_width
  let bar_piece_count := bar_width - BAR_BORDER_WIDTH
  (progressbar_bar_piece_current_checked bar bar_piece_count).bind fun bar_piece_current =>
    (progressbar_eta_checked bar now).map fun eta =>
      (if label_width = 0 then "" else bar.label.take (intToSize label_width) ++ " ")
        ++ String.singleton bar.fmt_begin
        ++ progressbar_write_char bar.fmt_fill (intToSize bar_piece_current)
        ++ progressbar_write_char ' ' (intToSize (bar_piece_count - bar_piece_current))
        ++ String.singleton bar.fmt_end
        ++ " " ++ etaString eta ++ "\r"

lemma ULONG_CARD_eq : ULONG_CARD = 18446744073709551616 := by norm_num [ULONG_CARD]

lemma progressbar_max_eq (x y : ℤ) : progressbar_max x y = max x y := by
  unfold progressbar_max; omega

lemma progressbar_bar_width_min (W L : ℤ) : 10 ≤ progressbar_bar_width W L := by
  unfold progressbar_bar_width progressbar_max MINIMUM_BAR_WIDTH ETA_FORMAT_LENGTH WHITESPACE_LENGTH
  omega

lemma cTrunc_eq_floor (q : ℚ) (h : 0 ≤ q) : cTrunc q = ⌊q⌋ := by
  rw [cTrunc, Rat.floor_def]
  rw [Int.tdiv_eq_ediv (Rat.num_nonneg.mpr h) (by exact_mod_cast q.den.zero_le)]

lemma cTrunc_intCast_div_natCast (a : ℤ) (n : ℕ) (h : 0 ≤ a) :
    cTrunc ((a : ℚ) / (n : ℚ)) = a / (n : ℤ) := by
  rw [cTrunc_eq_floor _ (by positivity), Rat.floor_intCast_div_natCast]

lemma usubULong_eq (x y : ℕ) (hy : y ≤ x) (hx : x < ULONG_CARD) :
    usubULong x y = x - y := by
  simp only [usubULong, ULONG_CARD_eq] at *
  omega

lemma progressbar_bar_piece_current_eq (bar : progressbar) (bpc : ℤ) (h : 0 ≤ bpc) :
    progressbar_bar_piece_current bar bpc =
      if bar.max ≤ bar.value then bpc else (bpc * (bar.value : ℤ)) / (bar.max : ℤ) := by
  unfold progressbar_bar_piece_current
  by_cases hc : bar.max ≤ bar.value
  · simp [progressbar_completed, hc]
  · have hcb : progressbar_completed bar = false := by
      simp [progressbar_completed, hc]
    rw [hcb]
    simp only [Bool.false_eq_true, if_false, if_neg hc]
    have : (bpc : ℚ) * ((bar.value : ℚ) / (bar.max : ℚ))
        = ((bpc * (bar.value : ℤ) : ℤ) : ℚ) / ((bar.max : ℕ) : ℚ) := by
      push_cast
      ring
    rw [this, cTrunc_intCast_div_natCast _ _ (by positivity)]

lemma progressbar_remaining_seconds_eq (bar : progressbar) (now : ℤ) :
    progressbar_remaining_seconds bar now =
      if 0 < bar.value ∧ 0 < now - bar.start then
        ((now - bar.start) * ((usubULong bar.max bar.value : ℕ) : ℤ)) / (bar.value : ℤ)
      else 0 := by
  unfold progressbar_remaining_seconds
  have hiff : (0 : ℚ) < ((now - bar.start : ℤ) : ℚ) ↔ 0 < now - bar.start := by
    exact_mod_cast Int.cast_pos
  by_cases hg : 0 < bar.value ∧ 0 < now - bar.start
  · rw [if_pos ⟨hg.1, hiff.mpr hg.2⟩, if_pos hg]
    have : ((now - bar.start : ℤ) : ℚ) / (bar.value : ℚ) * ((usubULong bar.max bar.value : ℕ) : ℚ)
        = (((now - bar.start) * ((usubULong bar.max bar.value : ℕ) : ℤ) : ℤ) : ℚ)
          / ((bar.value : ℕ) : ℚ) := by
      push_cast
      ring
    rw [this, cTrunc_intCast_div_natCast _ _ (mul_nonneg hg.2.le (by positivity))]
  · rw [if_neg, if_neg hg]
    intro hcon
    exact hg ⟨hcon.1, hiff.mp hcon.2⟩

lemma intToSize_eq (x : ℤ) (h0 : 0 ≤ x) (h1 : x < 18446744073709551616) :
    (intToSize x : ℤ) = x := by
  unfold intToSize
  rw [Int.emod_eq_of_lt h0 (by rw [ULONG_CARD_eq]; exact_mod_cast h1)]
  exact Int.toNat_of_nonneg h0

lemma calc_time_eq (n : ℕ) :
    progressbar_calc_time_components (n : ℤ) =
      ⟨((n / 3600 : ℕ) : ℤ), ((n % 3600 / 60 : ℕ) : ℤ), ((n % 3600 % 60 : ℕ) : ℤ)⟩ := by
  have h1 : Int.tdiv (n : ℤ) 3600 = ((n / 3600 : ℕ) : ℤ) := (Int.ofNat_tdiv n 3600).symm
  have h2 : ((n : ℤ) - ((n / 3600 : ℕ) : ℤ) * 3600) = ((n % 3600 : ℕ) : ℤ) := by omega
  have h3 : Int.tdiv ((n % 3600 : ℕ) : ℤ) 60 = ((n % 3600 / 60 : ℕ) : ℤ) :=
    (Int.ofNat_tdiv (n % 3600) 60).symm
  have h4 : (((n % 3600 : ℕ) : ℤ) - ((n % 3600 / 60 : ℕ) : ℤ) * 60) = ((n % 3600 % 60 : ℕ) : ℤ) := by
    omega
  simp only [progressbar_calc_time_components, h1, h2, h3, h4]

/-- Claim C5: for every screen width `W` and every label length `L`, the
computed bar width equals `max(10, W - L - 13 - 2)`, and is at least 10 for
all inputs, no matter how small the screen or how long the label. -/
theorem C5_bar_width_formula (W L : ℤ) :
    progressbar_bar_width W L = max 10 (W - L - 13 - 2) ∧
      10 ≤ progressbar_bar_width W L := by
  constructor
  · rw [progressbar_bar_width, progressbar_max_eq]
    norm_num [MINIMUM_BAR_WIDTH, ETA_FORMAT_LENGTH, WHITESPACE_LENGTH]
  · exact progressbar_bar_width_min W L

/-- Claim C4: for every screen width `W ≥ 10 + 13 + 2` and every label
length, the computed layout satisfies
`labelWidth + 1 + barWidth + 1 + 13 ≤ W`: the layout never overflows the
screen once the minimum bar width is satisfiable. -/
theorem C4_layout_fits (W : ℤ) (L : ℕ) (hW : 10 + 13 + 2 ≤ W) :
    progressbar_label_width W (L : ℤ) (progressbar_bar_width W (L : ℤ)) + 1
      + progressbar_bar_width W (L : ℤ) + 1 + 13 ≤ W := by
  have hL : (0 : ℤ) ≤ (L : ℤ) := Int.ofNat_nonneg L
  simp only [progressbar_label_width, progressbar_bar_width, progressbar_max_eq,
    MINIMUM_BAR_WIDTH, ETA_FORMAT_LENGTH, WHITESPACE_LENGTH]
  split <;> omega

/-- Claim C7: for every total-seconds input `S ≥ 0`, the time decomposition
returns hours, minutes, seconds with
`hours * 3600 + minutes * 60 + seconds = S`, `0 ≤ minutes < 60` and
`0 ≤ seconds < 60`; there is no rollover into days, so sufficiently large
inputs make the hours component exceed 99. -/
theorem C7_time_decomposition (S : ℤ) (hS : 0 ≤ S) :
    (progressbar_calc_time_components S).hours * 3600
        + (progressbar_calc_time_components S).minutes * 60
        + (progressbar_calc_time_components S).seconds = S
      ∧ 0 ≤ (progressbar_calc_time_components S).minutes
      ∧ (progressbar_calc_time_components S).minutes < 60
      ∧ 0 ≤ (progressbar_calc_time_components S).seconds
      ∧ (progressbar_calc_time_components S).seconds < 60
      ∧ (360000 ≤ S → 100 ≤ (progressbar_calc_time_components S).hours) := by
  obtain ⟨n, rfl⟩ := Int.eq_ofNat_of_zero_le hS
  rw [calc_time_eq]
  dsimp only
  refine ⟨by omega, by omega, by omega, by omega, by omega, by omega⟩

/-- Witness for C4 at `W = 25`, `L = 17`. -/
theorem C4_layout_fits_witness :
    ((10 + 13 + 2 : ℤ) ≤ 25) ∧
      progressbar_label_width 25 ((17 : ℕ) : ℤ) (progressbar_bar_width 25 ((17 : ℕ) : ℤ)) + 1
        + progressbar_bar_width 25 ((17 : ℕ) : ℤ) + 1 + 13 ≤ 25 :=
  ⟨by decide, C4_layout_fits 25 17 (by decide)⟩

/-- Witness for C7 at `S = 363725` (101 hours, 2 minutes, 5 seconds). -/
theorem C7_time_decomposition_witness :
    ((0 : ℤ) ≤ 363725)
      ∧ ((progressbar_calc_time_components 363725).hours * 3600
          + (progressbar_calc_time_components 363725).minutes * 60
          + (progressbar_calc_time_components 363725).seconds = 363725
        ∧ 0 ≤ (progressbar_calc_time_components 363725).minutes
        ∧ (progressbar_calc_time_components 363725).minutes < 60
        ∧ 0 ≤ (progressbar_calc_time_components 363725).seconds
        ∧ (progressbar_calc_time_components 363725).seconds < 60
        ∧ ((360000 : ℤ) ≤ 363725 → 100 ≤ (progressbar_calc_time_components 363725).hours)) :=
  ⟨by decide, C7_time_decomposition 363725 (by decide)⟩

/-- Claim C1: for every bar state with `maximum > 0` and
`0 ≤ current ≤ maximum`, at the bar width the draw logic computes for any
screen width, the filled-cell count equals
`floor((barWidth - 2) * current / maximum)` (integer truncation, no
rounding), and it equals `barWidth - 2` exactly when `current ≥ maximum`.
The `double` arithmetic of the source is modelled exactly over `ℚ`. -/
theorem C1_fill_count (bar : progressbar) (W : ℤ)
    (hmax : 0 < bar.max) (hcur : bar.value ≤ bar.max) :
    progressbar_bar_piece_current bar
        (progressbar_bar_width W ((bar.label.length : ℕ) : ℤ) - BAR_BORDER_WIDTH)
      = ⌊((progressbar_bar_width W ((bar.label.length : ℕ) : ℤ) - BAR_BORDER_WIDTH : ℤ) : ℚ)
          * (bar.value : ℚ) / (bar.max : ℚ)⌋
    ∧ (progressbar_bar_piece_current bar
          (progressbar_bar_width W ((bar.label.length : ℕ) : ℤ) - BAR_BORDER_WIDTH)
        = progressbar_bar_width W ((bar.label.length : ℕ) : ℤ) - BAR_BORDER_WIDTH
      ↔ bar.max ≤ bar.value) := by
  have h10 : 10 ≤ progressbar_bar_width W ((bar.label.length : ℕ) : ℤ) :=
    progressbar_bar_width_min _ _
  set bw := progressbar_bar_width W ((bar.label.length : ℕ) : ℤ) with hbw
  have hbpc : (0 : ℤ) < bw - BAR_BORDER_WIDTH := by
    simp only [BAR_BORDER_WIDTH]; omega
  have hfloor : ⌊((bw - BAR_BORDER_WIDTH : ℤ) : ℚ) * (bar.value : ℚ) / (bar.max : ℚ)⌋
      = ((bw - BAR_BORDER_WIDTH) * (bar.value : ℤ)) / (bar.max : ℤ) := by
    have : ((bw - BAR_BORDER_WIDTH : ℤ) : ℚ) * (bar.value : ℚ) / (bar.max : ℚ)
        = (((bw - BAR_BORDER_WIDTH) * (bar.value : ℤ) : ℤ) : ℚ) / ((bar.max : ℕ) : ℚ) := by
      push_cast; ring
    rw [this, Rat.floor_intCast_div_natCast]
  rw [progressbar_bar_piece_current_eq _ _ hbpc.le, hfloor]
  by_cases hc : bar.max ≤ bar.value
  · have hv : bar.value = bar.max := le_antisymm hcur hc
    rw [if_pos hc]
    constructor
    · rw [hv]
      rw [Int.mul_ediv_cancel _ (by exact_mod_cast hmax.ne')]
    · exact ⟨fun _ => hc, fun _ => rfl⟩
  · rw [if_neg hc]
    have hlt : ((bw - BAR_BORDER_WIDTH) * (bar.value : ℤ)) / (bar.max : ℤ)
        < bw - BAR_BORDER_WIDTH := by
      rw [Int.ediv_lt_iff_lt_mul (by exact_mod_cast hmax)]
      have : (bar.value : ℤ) < (bar.max : ℤ) := by
        exact_mod_cast lt_of_not_le hc
      exact mul_lt_mul_of_pos_left this hbpc |>.trans_le (by ring_nf; exact le_refl _)
    exact ⟨rfl, ⟨fun h => absurd h hlt.ne, fun h => absurd h hc⟩⟩

/-- Witness for C1 at a bar with `maximum = 4`, `current = 1`, label "ab",
and screen width 80. -/
theorem C1_fill_count_witness :
    0 < (progressbar.mk 4 1 0 "ab" '|' '=' '|').max
      ∧ (progressbar.mk 4 1 0 "ab" '|' '=' '|').value ≤ (progressbar.mk 4 1 0 "ab" '|' '=' '|').max
      ∧ (progressbar_bar_piece_current (progressbar.mk 4 1 0 "ab" '|' '=' '|')
            (progressbar_bar_width 80 (((progressbar.mk 4 1 0 "ab" '|' '=' '|').label.length : ℕ) : ℤ)
              - BAR_BORDER_WIDTH)
          = ⌊((progressbar_bar_width 80 (((progressbar.mk 4 1 0 "ab" '|' '=' '|').label.length : ℕ) : ℤ)
                - BAR_BORDER_WIDTH : ℤ) : ℚ)
              * ((progressbar.mk 4 1 0 "ab" '|' '=' '|').value : ℚ)
              / ((progressbar.mk 4 1 0 "ab" '|' '=' '|').max : ℚ)⌋
        ∧ (progressbar_bar_piece_current (progressbar.mk 4 1 0 "ab" '|' '=' '|')
              (progressbar_bar_width 80 (((progressbar.mk 4 1 0 "ab" '|' '=' '|').label.length : ℕ) : ℤ)
                - BAR_BORDER_WIDTH)
            = progressbar_bar_width 80 (((progressbar.mk 4 1 0 "ab" '|' '=' '|').label.length : ℕ) : ℤ)
              - BAR_BORDER_WIDTH
          ↔ (progressbar.mk 4 1 0 "ab" '|' '=' '|').max ≤ (progressbar.mk 4 1 0 "ab" '|' '=' '|').value)) :=
  ⟨by decide, by decide, C1_fill_count (progressbar.mk 4 1 0 "ab" '|' '=' '|') 80 (by decide) (by decide)⟩

/-- Claim C9: for every bar state (including `current > maximum` and
`maximum = 0`) and every screen width a C `int` can hold, the filled-piece
count satisfies `0 ≤ bar_piece_current ≤ bar_piece_count`, so the empty-run
length `bar_piece_count - bar_piece_current` is non-negative and its
conversion to the unsigned `size_t` count is the value itself (no wrap). -/
theorem C9_empty_run_no_wrap (bar : progressbar) (W : ℤ) (hW : W < 2 ^ 31) :
    0 ≤ progressbar_bar_piece_current bar
        (progressbar_bar_width W ((bar.label.length : ℕ) : ℤ) - BAR_BORDER_WIDTH)
      ∧ progressbar_bar_piece_current bar
          (progressbar_bar_width W ((bar.label.length : ℕ) : ℤ) - BAR_BORDER_WIDTH)
        ≤ progressbar_bar_width W ((bar.label.length : ℕ) : ℤ) - BAR_BORDER_WIDTH
      ∧ (intToSize ((progressbar_bar_width W ((bar.label.length : ℕ) : ℤ) - BAR_BORDER_WIDTH)
            - progressbar_bar_piece_current bar
                (progressbar_bar_width W ((bar.label.length : ℕ) : ℤ) - BAR_BORDER_WIDTH)) : ℤ)
        = (progressbar_bar_width W ((bar.label.length : ℕ) : ℤ) - BAR_BORDER_WIDTH)
            - progressbar_bar_piece_current bar
                (progressbar_bar_width W ((bar.label.length : ℕ) : ℤ) - BAR_BORDER_WIDTH) := by
  have h10 : 10 ≤ progressbar_bar_width W ((bar.label.length : ℕ) : ℤ) :=
    progressbar_bar_width_min _ _
  have hub : progressbar_bar_width W ((bar.label.length : ℕ) : ℤ) < 2 ^ 62 := by
    have hL : (0 : ℤ) ≤ ((bar.label.length : ℕ) : ℤ) := Int.ofNat_nonneg _
    simp only [progressbar_bar_width, progressbar_max_eq, MINIMUM_BAR_WIDTH,
      ETA_FORMAT_LENGTH, WHITESPACE_LENGTH]
    have : (2 : ℤ) ^ 31 ≤ 2 ^ 62 := by norm_num
    omega
  set bw := progressbar_bar_width W ((bar.label.length : ℕ) : ℤ) with hbw
  have hbpc : (0 : ℤ) < bw - BAR_BORDER_WIDTH := by
    simp only [BAR_BORDER_WIDTH]; omega
  have hbounds : 0 ≤ progressbar_bar_piece_current bar (bw - BAR_BORDER_WIDTH)
      ∧ progressbar_bar_piece_current bar (bw - BAR_BORDER_WIDTH) ≤ bw - BAR_BORDER_WIDTH := by
    rw [progressbar_bar_piece_current_eq _ _ hbpc.le]
    by_cases hc : bar.max ≤ bar.value
    · rw [if_pos hc]; exact ⟨hbpc.le, le_refl _⟩
    · rw [if_neg hc]
      have hmax : (0 : ℤ) < (bar.max : ℤ) := by
        exact_mod_cast Nat.pos_of_ne_zero (by omega)
      constructor
      · exact Int.ediv_nonneg (mul_nonneg hbpc.le (Int.ofNat_nonneg _)) hmax.le
      · have hlt : ((bw - BAR_BORDER_WIDTH) * (bar.value : ℤ)) / (bar.max : ℤ)
            < bw - BAR_BORDER_WIDTH := by
          rw [Int.ediv_lt_iff_lt_mul hmax]
          have hvm : (bar.value : ℤ) < (bar.max : ℤ) := by
            exact_mod_cast lt_of_not_le hc
          exact mul_lt_mul_of_pos_left hvm hbpc
        exact hlt.le
  refine ⟨hbounds.1, hbounds.2, ?_⟩
  refine intToSize_eq _ (by omega) ?_
  have hB : BAR_BORDER_WIDTH = (2 : ℤ) := rfl
  have h62 : (2 : ℤ) ^ 62 ≤ 18446744073709551616 := by norm_num
  omega

/-- Witness for C9 at a bar with `maximum = 0` and `current = 3` (already
past a zero maximum) and screen width 80. -/
theorem C9_empty_run_no_wrap_witness :
    ((80 : ℤ) < 2 ^ 31)
      ∧ (0 ≤ progressbar_bar_piece_current (progressbar.mk 0 3 0 "x" '|' '=' '|')
            (progressbar_bar_width 80 (((progressbar.mk 0 3 0 "x" '|' '=' '|').label.length : ℕ) : ℤ)
              - BAR_BORDER_WIDTH)
        ∧ progressbar_bar_piece_current (progressbar.mk 0 3 0 "x" '|' '=' '|')
              (progressbar_bar_width 80 (((progressbar.mk 0 3 0 "x" '|' '=' '|').label.length : ℕ) : ℤ)
                - BAR_BORDER_WIDTH)
            ≤ progressbar_bar_width 80 (((progressbar.mk 0 3 0 "x" '|' '=' '|').label.length : ℕ) : ℤ)
              - BAR_BORDER_WIDTH
        ∧ (intToSize ((progressbar_bar_width 80 (((progressbar.mk 0 3 0 "x" '|' '=' '|').label.length : ℕ) : ℤ)
                - BAR_BORDER_WIDTH)
              - progressbar_bar_piece_current (progressbar.mk 0 3 0 "x" '|' '=' '|')
                  (progressbar_bar_width 80 (((progressbar.mk 0 3 0 "x" '|' '=' '|').label.length : ℕ) : ℤ)
                    - BAR_BORDER_WIDTH)) : ℤ)
          = (progressbar_bar_width 80 (((progressbar.mk 0 3 0 "x" '|' '=' '|').label.length : ℕ) : ℤ)
                - BAR_BORDER_WIDTH)
              - progressbar_bar_piece_current (progressbar.mk 0 3 0 "x" '|' '=' '|')
                  (progressbar_bar_width 80 (((progressbar.mk 0 3 0 "x" '|' '=' '|').label.length : ℕ) : ℤ)
                    - BAR_BORDER_WIDTH)) :=
  ⟨by decide, C9_empty_run_no_wrap (progressbar.mk 0 3 0 "x" '|' '=' '|') 80 (by decide)⟩

/-- Claim C3: for every bar state, the ETA field value computed at draw time
is the elapsed time `now - startTime` decomposed into hours/minutes/seconds
when `current ≥ maximum`; otherwise, when `current > 0` and the elapsed time
is positive, the remaining-seconds estimate
`elapsed * (maximum - current) / current` (exact real arithmetic truncated
to an integer); otherwise exactly 0 seconds.  All branches are total
functions of the state and the clock, so no error is raised in any case. -/
theorem C3_eta_value (bar : progressbar) (now : ℤ) (hm : bar.max < ULONG_CARD) :
    progressbar_eta bar now =
      if bar.max ≤ bar.value then
        progressbar_calc_time_components (now - bar.start)
      else if 0 < bar.value ∧ 0 < now - bar.start then
        progressbar_calc_time_components
          (cTrunc (((now - bar.start : ℤ) : ℚ) * ((bar.max - bar.value : ℕ) : ℚ) / (bar.value : ℚ)))
      else
        progressbar_calc_time_components 0 := by
  unfold progressbar_eta
  by_cases hc : bar.max ≤ bar.value
  · have hcb : progressbar_completed bar = true := by simp [progressbar_completed, hc]
    rw [hcb, if_pos hc]
    simp only [if_true]
  · have hcb : progressbar_completed bar = false := by simp [progressbar_completed, hc]
    rw [hcb, if_neg hc]
    simp only [Bool.false_eq_true, if_false]
    have hvm : bar.value < bar.max := lt_of_not_le hc
    have hiff : (0 : ℚ) < ((now - bar.start : ℤ) : ℚ) ↔ 0 < now - bar.start := by
      exact_mod_cast Int.cast_pos
    simp only [progressbar_remaining_seconds]
    by_cases hg : 0 < bar.value ∧ 0 < now - bar.start
    · rw [if_pos ⟨hg.1, hiff.mpr hg.2⟩, if_pos hg]
      congr 1
      rw [usubULong_eq _ _ hvm.le hm, div_mul_eq_mul_div]
    · rw [if_neg (fun hcon => hg ⟨hcon.1, hiff.mp hcon.2⟩), if_neg hg]

/-- Witness for C3 at a bar with `maximum = 10`, `current = 4`, started at
time 0 and drawn at time 6. -/
theorem C3_eta_value_witness :
    ((progressbar.mk 10 4 0 "L" '|' '=' '|').max < ULONG_CARD)
      ∧ progressbar_eta (progressbar.mk 10 4 0 "L" '|' '=' '|') 6 =
        (if (progressbar.mk 10 4 0 "L" '|' '=' '|').max ≤ (progressbar.mk 10 4 0 "L" '|' '=' '|').value then
          progressbar_calc_time_components (6 - (progressbar.mk 10 4 0 "L" '|' '=' '|').start)
        else if 0 < (progressbar.mk 10 4 0 "L" '|' '=' '|').value
            ∧ 0 < 6 - (progressbar.mk 10 4 0 "L" '|' '=' '|').start then
          progressbar_calc_time_components
            (cTrunc (((6 - (progressbar.mk 10 4 0 "L" '|' '=' '|').start : ℤ) : ℚ)
              * (((progressbar.mk 10 4 0 "L" '|' '=' '|').max
                  - (progressbar.mk 10 4 0 "L" '|' '=' '|').value : ℕ) : ℚ)
              / ((progressbar.mk 10 4 0 "L" '|' '=' '|').value : ℚ)))
        else
          progressbar_calc_time_components 0) :=
  ⟨by decide, C3_eta_value (progressbar.mk 10 4 0 "L" '|' '=' '|') 6 (by decide)⟩

lemma progressbar_draw_int_form (bar : progressbar) (W now : ℤ) :
    progressbar_draw bar W now =
      (if progressbar_label_width W ((bar.label.length : ℕ) : ℤ)
            (progressbar_bar_width W ((bar.label.length : ℕ) : ℤ)) = 0 then ""
       else bar.label.take (intToSize (progressbar_label_width W ((bar.label.length : ℕ) : ℤ)
            (progressbar_bar_width W ((bar.label.length : ℕ) : ℤ)))) ++ " ")
        ++ String.singleton bar.fmt_begin
        ++ progressbar_write_char bar.fmt_fill
            (intToSize (if bar.max ≤ bar.value then
                progressbar_bar_width W ((bar.label.length : ℕ) : ℤ) - BAR_BORDER_WIDTH
              else (progressbar_bar_width W ((bar.label.length : ℕ) : ℤ) - BAR_BORDER_WIDTH)
                * (bar.value : ℤ) / (bar.max : ℤ)))
        ++ progressbar_write_char ' '
            (intToSize ((progressbar_bar_width W ((bar.label.length : ℕ) : ℤ) - BAR_BORDER_WIDTH)
              - (if bar.max ≤ bar.value then
                  progressbar_bar_width W ((bar.label.length : ℕ) : ℤ) - BAR_BORDER_WIDTH
                else (progressbar_bar_width W ((bar.label.length : ℕ) : ℤ) - BAR_BORDER_WIDTH)
                  * (bar.value : ℤ) / (bar.max : ℤ))))
        ++ String.singleton bar.fmt_end
        ++ " "
        ++ etaString (if bar.max ≤ bar.value then
            progressbar_calc_time_components (now - bar.start)
          else progressbar_calc_time_components
            (if 0 < bar.value ∧ 0 < now - bar.start then
              (now - bar.start) * ((usubULong bar.max bar.value : ℕ) : ℤ) / (bar.value : ℤ)
             else 0))
        ++ "\r" := by
  have h10 := progressbar_bar_width_min W ((bar.label.length : ℕ) : ℤ)
  have hbpc : (0 : ℤ) ≤ progressbar_bar_width W ((bar.label.length : ℕ) : ℤ) - BAR_BORDER_WIDTH := by
    simp only [BAR_BORDER_WIDTH]; omega
  simp only [progressbar_draw, progressbar_eta,
    progressbar_bar_piece_current_eq _ _ hbpc, progressbar_remaining_seconds_eq,
    progressbar_completed, ge_iff_le, decide_eq_true_eq]

/-- C2 counterexample: drawing a fresh "Loading" bar (maximum 10, current 0)
at screen width 80 emits bytes that do not begin with the
clear-line-and-return control sequence `"\x1b[2K\r"`; that sequence appears
only in the `printf_bar` macro, which targets standard output. -/
theorem C2_counterexample :
    "\x1b[2K\r".data.isPrefixOf
        (progressbar_draw (progressbar.mk 10 0 0 "Loading" '|' '=' '|') 80 0).data = false := by
  rw [progressbar_draw_int_form]
  decide

/-- C2 amended: every draw ends its output with a carriage return and emits
no newline after it (the final byte is `'\r'`, not `'\n'`), so the next draw
overwrites the line in place; no line-clear control sequence is emitted. -/
theorem C2_amended_trailing_cr (bar : progressbar) (W now : ℤ) :
    (progressbar_draw bar W now).data.getLast? = some '\r'
      ∧ (progressbar_draw bar W now).data.getLast? ≠ some '\n' := by
  obtain ⟨y, hy⟩ : ∃ y, progressbar_draw bar W now = y ++ "\r" := ⟨_, rfl⟩
  rw [hy, String.data_append, show ("\r" : String).data = ['\r'] from rfl,
    List.getLast?_concat]
  exact ⟨rfl, by decide⟩

/-- C8 counterexample: with the bar state unchanged (maximum 10, current 5,
started at time 0), a draw whose clock reads 5 and a draw whose clock reads
10 render different ETA fields, so two successive draws with no intervening
state change need not produce identical output. -/
theorem C8_counterexample :
    progressbar_draw (progressbar.mk 10 5 0 "L" '|' '=' '|') 80 5
      ≠ progressbar_draw (progressbar.mk 10 5 0 "L" '|' '=' '|') 80 10 := by
  rw [progressbar_draw_int_form, progressbar_draw_int_form]
  decide

/-- C8 amended: the draw routine reads its state through a pointer to
`const` and mutates nothing, so two successive draw calls that observe the
same wall clock and the same screen width produce identical output. -/
theorem C8_amended_idempotent (bar : progressbar) (W now : ℤ) :
    (progressbar_draw_call ((progressbar_draw_call bar W now).1) W now).2
      = (progressbar_draw_call bar W now).2 := rfl

/-- C10 counterexample: a bar with `maximum = 0` and
`current = 2 ^ 64 - 1` is complete; incrementing wraps `current` to 0, yet
the bar is still complete at the next draw (`0 ≥ 0`), so the claimed
"becomes incomplete" consequence fails. -/
theorem C10_counterexample :
    (progressbar_inc (progressbar.mk 0 (2 ^ 64 - 1) 0 "L" '|' '=' '|')).value = 0
      ∧ progressbar_completed (progressbar.mk 0 (2 ^ 64 - 1) 0 "L" '|' '=' '|') = true
      ∧ progressbar_completed (progressbar_inc (progressbar.mk 0 (2 ^ 64 - 1) 0 "L" '|' '=' '|'))
          = true := by
  refine ⟨?_, by decide, ?_⟩
  · simp [progressbar_inc, progressbar_update, ULONG_CARD]
  · simp [progressbar_inc, progressbar_update, progressbar_completed, ULONG_CARD]

/-- C10 amended: incrementing a bar whose current value is the maximum
representable `unsigned long` wraps `current` to 0 modulo `2 ^ 64`
(increment is update with `current + 1` in modular arithmetic, with no
clamping); such a bar was complete, and when `maximum > 0` it becomes
incomplete again at the next draw. -/
theorem C10_amended_wrap (bar : progressbar) (hv : bar.value = 2 ^ 64 - 1)
    (hm : bar.max < 2 ^ 64) :
    (progressbar_inc bar).value = 0
      ∧ progressbar_completed bar = true
      ∧ (0 < bar.max → progressbar_completed (progressbar_inc bar) = false) := by
  refine ⟨?_, ?_, ?_⟩
  · simp [progressbar_inc, progressbar_update, hv, ULONG_CARD]
  · simp only [progressbar_completed, ge_iff_le, decide_eq_true_eq, hv]
    omega
  · intro hpos
    have h0 : (progressbar_inc bar).value = 0 := by
      simp [progressbar_inc, progressbar_update, hv, ULONG_CARD]
    have hmx : (progressbar_inc bar).max = bar.max := by
      simp [progressbar_inc, progressbar_update]
    simp only [progressbar_completed, ge_iff_le, h0, hmx, decide_eq_false_iff_not]
    omega

/-- Witness for C10 amended at a bar with `maximum = 1` and
`current = 2 ^ 64 - 1`. -/
theorem C10_amended_wrap_witness :
    ((progressbar.mk 1 (2 ^ 64 - 1) 0 "L" '|' '=' '|').value = 2 ^ 64 - 1)
      ∧ ((progressbar.mk 1 (2 ^ 64 - 1) 0 "L" '|' '=' '|').max < 2 ^ 64)
      ∧ ((progressbar_inc (progressbar.mk 1 (2 ^ 64 - 1) 0 "L" '|' '=' '|')).value = 0
        ∧ progressbar_completed (progressbar.mk 1 (2 ^ 64 - 1) 0 "L" '|' '=' '|') = true
        ∧ (0 < (progressbar.mk 1 (2 ^ 64 - 1) 0 "L" '|' '=' '|').max →
            progressbar_completed (progressbar_inc (progressbar.mk 1 (2 ^ 64 - 1) 0 "L" '|' '=' '|'))
              = false)) :=
  ⟨by decide, by decide,
    C10_amended_wrap (progressbar.mk 1 (2 ^ 64 - 1) 0 "L" '|' '=' '|') (by decide) (by decide)⟩

lemma progressbar_remaining_seconds_checked_eq (bar : progressbar) (now : ℤ) :
    progressbar_remaining_seconds_checked bar now
      = some (progressbar_remaining_seconds bar now) := by
  simp only [progressbar_remaining_seconds_checked, progressbar_remaining_seconds]
  by_cases hg : 0 < bar.value ∧ 0 < ((now - bar.start : ℤ) : ℚ)
  · rw [if_pos hg, if_pos hg, if_neg]
    exact_mod_cast Nat.pos_iff_ne_zero.mp hg.1
  · rw [if_neg hg, if_neg hg]

lemma progressbar_bar_piece_current_checked_eq (bar : progressbar) (bpc : ℤ) :
    progressbar_bar_piece_current_checked bar bpc
      = some (progressbar_bar_piece_current bar bpc) := by
  simp only [progressbar_bar_piece_current_checked, progressbar_bar_piece_current]
  by_cases hc : progressbar_completed bar = true
  · rw [if_pos hc, if_pos hc]
  · have hcb : progressbar_completed bar = false := by
      revert hc; cases progressbar_completed bar <;> simp
    rw [hcb]
    simp only [Bool.false_eq_true, if_false]
    rw [if_neg]
    have hvm : bar.value < bar.max := by
      by_contra hle
      revert hcb
      simp [progressbar_completed]
      omega
    exact_mod_cast Nat.pos_iff_ne_zero.mp (lt_of_le_of_lt (Nat.zero_le _) hvm)

lemma progressbar_eta_checked_eq (bar : progressbar) (now : ℤ) :
    progressbar_eta_checked bar now = some (progressbar_eta bar now) := by
  simp only [progressbar_eta_checked, progressbar_eta,
    progressbar_remaining_seconds_checked_eq, Option.map_some']
  by_cases hc : progressbar_completed bar = true
  · rw [if_pos hc, if_pos hc]
  · have hcb : progressbar_completed bar = false := by
      revert hc; cases progressbar_completed bar <;> simp
    rw [hcb]
    simp only [Bool.false_eq_true, if_false]

/-- Claim C6: for every bar state with `maximum = 0` and any current value,
the draw branches to the complete default (`current >= maximum` holds), and
neither the draw logic nor the ETA logic ever executes a division with a
zero divisor: the division-checked draw succeeds and returns exactly the
bytes of the unchecked draw. -/
theorem C6_no_division_by_zero (bar : progressbar) (W now : ℤ) (h0 : bar.max = 0) :
    progressbar_completed bar = true
      ∧ progressbar_draw_checked bar W now = some (progressbar_draw bar W now) := by
  constructor
  · simp [progressbar_completed, h0]
  · simp only [progressbar_draw_checked, progressbar_draw,
      progressbar_bar_piece_current_checked_eq, progressbar_eta_checked_eq,
      Option.some_bind, Option.map_some']

/-- Witness for C6 at a bar with `maximum = 0`, `current = 5`, drawn at
screen width 80 and time 7. -/
theorem C6_no_division_by_zero_witness :
    ((progressbar.mk 0 5 0 "L" '|' '=' '|').max = 0)
      ∧ (progressbar_completed (progressbar.mk 0 5 0 "L" '|' '=' '|') = true
        ∧ progressbar_draw_checked (progressbar.mk 0 5 0 "L" '|' '=' '|') 80 7
            = some (progressbar_draw (progressbar.mk 0 5 0 "L" '|' '=' '|') 80 7)) :=
  ⟨by decide, C6_no_division_by_zero (progressbar.mk 0 5 0 "L" '|' '=' '|') 80 7 (by decide)⟩
